import Mathlib

/-!
Verification of the FastFoodDeals plugin (src/main.py) against its
natural-language specification.

The Python source is shallowly embedded: each relevant function is
translated into an executable Lean definition.  Python strings are Lean
`String`s, Python lists are Lean `List`s, dictionaries of deal records are
a `Deal` structure (one field per dictionary key used by the program;
the floating-point `price`/`origin_price` fields are carried only where a
claim needs them, and never arithmetically), exceptions become `Except`
or `Option` results, and network / messaging side effects become
explicit oracle functions passed as parameters together with traces of
emitted events.
-/

set_option maxHeartbeats 1000000

namespace FastFood

/-- Model of Python `str.strip()` on a list of characters: drop leading and
trailing whitespace.  (Python also strips some exotic Unicode whitespace;
the program only ever feeds it ASCII configuration strings.) -/
def pyStripList (l : List Char) : List Char :=
  ((l.dropWhile Char.isWhitespace).reverse.dropWhile Char.isWhitespace).reverse

/-- Model of Python `str.strip()` on a `String`. -/
def pyStrip (s : String) : String :=
  ⟨pyStripList s.data⟩

/-- Model of Python `str.startswith(pre)`. -/
def pyStartsWith (s pre : String) : Bool :=
  pre.data.isPrefixOf s.data

/-- Helper for Python's substring test `needle in haystack`: does `needle`
occur contiguously in `hay`? -/
def strInAux (needle : List Char) : List Char → Bool
  | [] => needle.isPrefixOf []
  | c :: rest => needle.isPrefixOf (c :: rest) || strInAux needle rest

/-- Model of Python `needle in haystack` for strings. -/
def strIn (needle hay : String) : Bool :=
  strInAux needle.data hay.data

/-- Model of Python `str.lower()` (the program only lowercases ASCII
configuration keywords). -/
def pyLower (s : String) : String :=
  ⟨s.data.map Char.toLower⟩

/-- Model of Python slicing `s[:n]`: the first `n` characters. -/
def pyTake (n : Nat) (s : String) : String :=
  ⟨s.data.take n⟩

/-- Accumulator-style splitter on a single separator character
(`cur` holds the current field, reversed). -/
def splitOnCharAux (c : Char) : List Char → List Char → List (List Char)
  | cur, [] => [cur.reverse]
  | cur, x :: xs =>
    if x = c then cur.reverse :: splitOnCharAux c [] xs
    else splitOnCharAux c (x :: cur) xs

/-- Model of Python `s.split(":")` (the only separator the program splits
on): fields between occurrences of the separator, keeping empty fields,
and `[""]` for the empty string — exactly Python's behavior for a
one-character separator. -/
def pySplitColon (s : String) : List String :=
  (splitOnCharAux ':' [] s.data).map (fun l => ⟨l⟩)

/-- One deal record, as built by the data-source adapters in `main.py`
(a Python dict with these keys; `date` carries the `today_str` argument,
`origin_price` is kept as an optional uninterpreted string since no claim
computes with the float values). -/
structure Deal where
  date : String := ""
  brand : String := ""
  title : String := ""
  category : String := ""
  tag : String := ""
  activity : String := ""
  desc : String := ""
  main_image_url : String := ""
deriving DecidableEq

/-! ## Schedule-time parsing (`_parse_schedule_time`, lines 36-52) -/

/-- Digit-run parser used by the model of Python `int()`: accepts a
nonempty run of ASCII digits in which single underscores may separate
digits (the `Bool` records whether the previous character was a digit, so
an underscore is only legal right after a digit and must be followed by
one); `pyDigits` accepts `1_000` but rejects `_1`, `1_` and `1__0`,
like Python's `int()`. -/
def pyDigits : Bool → Nat → List Char → Option Nat
  | ok, acc, [] => if ok then some acc else none
  | ok, acc, c :: cs =>
    if c.isDigit then pyDigits true (acc * 10 + (c.toNat - 48)) cs
    else if c = '_' then (if ok then pyDigits false acc cs else none)
    else none

/-- Model of Python `int(s)` for decimal string literals: optional
surrounding whitespace, optional sign, then a digit run (with underscore
grouping).  Returns `none` where `int()` raises `ValueError`. -/
def pyInt : String → Option Int := fun s =>
  match (pyStrip s).data with
  | [] => none
  | '+' :: rest => (pyDigits false 0 rest).map Int.ofNat
  | '-' :: rest => (pyDigits false 0 rest).map (fun n => -(Int.ofNat n))
  | l => (pyDigits false 0 l).map Int.ofNat

/-- The two `int()` calls and the range check of `_parse_schedule_time`
(lines 45-49): each `ValueError` becomes an `Except.error`. -/
def parse_hour_minute (a b : String) : Except String (Int × Int) :=
  match pyInt a with
  | none => Except.error "invalid literal for int"
  | some hour =>
    match pyInt b with
    | none => Except.error "invalid literal for int"
    | some minute =>
      if 0 ≤ hour ∧ hour ≤ 23 ∧ 0 ≤ minute ∧ minute ≤ 59 then
        Except.ok (hour, minute)
      else Except.error "schedule_time value out of range"

/-- Body of `_parse_schedule_time` before the `except` handler: strip the
input, split on `":"`, require exactly two fields, parse and range-check
them. -/
def parse_schedule_time_body (s : String) : Except String (Int × Int) :=
  match pySplitColon (pyStrip s) with
  | [a, b] => parse_hour_minute a b
  | _ => Except.error "schedule_time format invalid"

/-- `_parse_schedule_time` (lines 36-52): any raised error is caught and
replaced by the default `(8, 0)`. -/
def parse_schedule_time (s : String) : Int × Int :=
  match parse_schedule_time_body s with
  | Except.ok hm => hm
  | Except.error _ => (8, 0)

/-- Specification-side reading of the per-field check, from the claim's
words. -/
def hourMinuteSpec (a b : String) : Option (Int × Int) :=
  match pyInt a, pyInt b with
  | some h, some m =>
    if 0 ≤ h ∧ h ≤ 23 ∧ 0 ≤ m ∧ m ≤ 59 then some (h, m) else none
  | _, _ => none

/-- Specification-side reading of schedule-time parsing, written from the
claim's words: a string whose stripped form splits into exactly two
fields that parse as integers in `0..23` / `0..59` yields those values,
anything else yields nothing. -/
def scheduleTimeSpec (s : String) : Option (Int × Int) :=
  match pySplitColon (pyStrip s) with
  | [a, b] => hourMinuteSpec a b
  | _ => none

/-! ## Theme registry (`THEME_CONFIG` / `DEFAULT_THEME`, lines 360-383,
and the lookup on line 439) -/

/-- One theme configuration (the dict values of `THEME_CONFIG` /
`DEFAULT_THEME`). -/
structure ThemeConfig where
  header_color : String
  header_subtitle_color : String
  title_text : String
  card_accent : String
  card_placeholder_fill : String
  card_placeholder_outline : String
  badge_fill : String
  badge_text_color : String
  background_image_name : Option String
deriving DecidableEq

/-- The registered `"crazy_thursday"` theme (lines 361-371). -/
def crazyThursdayTheme : ThemeConfig :=
  { header_color := "#e4002b"
    header_subtitle_color := "#ffd700"
    title_text := "疯狂星期四 · 今日快餐菜单与活动早报"
    card_accent := "#e4002b"
    card_placeholder_fill := "#ffe6e6"
    card_placeholder_outline := "#e4002b"
    badge_fill := "#ffd700"
    badge_text_color := "#5c3317"
    background_image_name := some "crazy_thursday.png" }

/-- `DEFAULT_THEME` (lines 373-383). -/
def DEFAULT_THEME : ThemeConfig :=
  { header_color := "#ff6b3b"
    header_subtitle_color := "#ffe7d9"
    title_text := "今日快餐菜单与活动早报"
    card_accent := "#ff6b3b"
    card_placeholder_fill := "#ffe9dd"
    card_placeholder_outline := "#ffb89b"
    badge_fill := "#ffdd55"
    badge_text_color := "#7a4b00"
    background_image_name := none }

/-- `THEME_CONFIG.get`: the registry holds exactly one key. -/
def THEME_CONFIG_get (key : String) : Option ThemeConfig :=
  if key = "crazy_thursday" then some crazyThursdayTheme else none

/-- Line 439: `cfg = THEME_CONFIG.get(theme, DEFAULT_THEME) if theme else
DEFAULT_THEME`.  A `none` theme (and, in Python, the falsy empty string,
which here is just an unregistered key) resolves to the default. -/
def resolveTheme : Option String → ThemeConfig
  | none => DEFAULT_THEME
  | some k => (THEME_CONFIG_get k).getD DEFAULT_THEME

/-! ## Poster prologue (`_generate_poster_sync`, lines 441-445) -/

/-- The input check and brand-name defaulting that `_generate_poster_sync`
performs before any drawing: raise `ValueError("deals is empty")` on an
empty list, otherwise default an absent `brand_name` to the first deal's
stripped brand, falling back to the generic label when that is empty. -/
def generate_poster_check : List Deal → Option String → Except String String
  | [], _ => Except.error "deals is empty"
  | d :: _, brandName =>
    Except.ok (brandName.getD
      (if pyStrip d.brand = "" then "快餐品牌" else pyStrip d.brand))

/-! ## Pagination loop (`_generate_poster_sync`, lines 487-496 and 653) -/

def canvasHeight : Nat := 1920

def headerHeight : Nat := 260

def cardHeight : Nat := 260

def cardGap : Nat := 30

/-- Line 488: `y = header_height + 40`. -/
def contentStartY : Nat := headerHeight + 40

/-- The card loop of `_generate_poster_sync` (lines 493-496 and 653),
reduced to the number of cards drawn: before each card it checks
`y + card_height + 40 > height` and breaks, otherwise draws the card and
advances `y` by `card_height + card_gap`. -/
def drawLoop : Nat → List Deal → Nat
  | _, [] => 0
  | y, _ :: rest =>
    if y + cardHeight + 40 > canvasHeight then 0
    else 1 + drawLoop (y + cardHeight + cardGap) rest

/-- Number of deal cards actually drawn on one poster. -/
def drawnCardCount (deals : List Deal) : Nat :=
  drawLoop contentStartY deals

/-- Top edge of the zero-indexed `k`-th card. -/
def cardTopY (k : Nat) : Nat :=
  contentStartY + k * (cardHeight + cardGap)

/-! ## Brand grouping (`cmd_fastfood_report` lines 756-768 and
`_run_daily_report` lines 852-863, which contain the identical code) -/

/-- Line 758/854: `str(deal.get("brand", "其他品牌")).strip() or "其他品牌"` —
the deal's brand, stripped, with the placeholder label for an empty
result. -/
def normBrand (d : Deal) : String :=
  if pyStrip d.brand = "" then "其他品牌" else pyStrip d.brand

/-- One step of recording a brand key in first-seen order (Python dict
key insertion). -/
def fsStep (ks : List String) (d : Deal) : List String :=
  if normBrand d ∈ ks then ks else ks ++ [normBrand d]

/-- The brand keys of `brand_map` in first-seen (dict insertion) order. -/
def firstSeenBrands (deals : List Deal) : List String :=
  deals.foldl fsStep []

/-- One iteration of lines 757-759:
`brand_map.setdefault(brand, []).append(deal)` on an association list in
insertion order. -/
def bmStep (m : List (String × List Deal)) (d : Deal) : List (String × List Deal) :=
  if normBrand d ∈ m.map Prod.fst then
    m.map (fun p => if p.1 = normBrand d then (p.1, p.2 ++ [d]) else p)
  else m ++ [(normBrand d, [d])]

/-- `brand_map` after the grouping loop (lines 756-759). -/
def brand_map (deals : List Deal) : List (String × List Deal) :=
  deals.foldl bmStep []

/-- Lines 761-768: `ordered_brands` — first every configured brand that is
a key of `brand_map`, in configuration order, then every remaining
`brand_map` key not already listed. -/
def ordered_brands (targetBrands keys : List String) : List String :=
  let pref := targetBrands.foldl (fun acc b => if b ∈ keys then acc ++ [b] else acc) []
  keys.foldl (fun acc b => if b ∈ acc then acc else acc ++ [b]) pref

/-- The grouped output actually consumed by the per-brand poster loop
(lines 774-777 / 867-870): for each entry of `ordered_brands`, the pair
of the brand and `brand_map.get(brand)`; entries without deals are
skipped (`if not brand_deals: continue`). -/
def groupDeals (targetBrands : List String) (deals : List Deal) : List (String × List Deal) :=
  let bm := brand_map deals
  (ordered_brands targetBrands (bm.map Prod.fst)).filterMap
    (fun b => ((bm.find? (fun p => decide (p.1 = b))).map (fun p => (b, p.2))))

/-- A deal with brand `"肯德基"`, used in concrete grouping examples. -/
def kfcDeal : Deal := { brand := "肯德基" }

/-- Deals and a preferred order matching the spec's order-stability
example. -/
def exDealA1 : Deal := { brand := "A", title := "a1" }

def exDealB2 : Deal := { brand := "B", title := "b2" }

def exDealA3 : Deal := { brand := "A", title := "a3" }

/-! ## RSS adapter (`_fetch_from_rss`, lines 110-179)

The XML fetching/parsing of each feed is abstracted by an oracle
`net : String → Option (List RssItem)`: `none` is a failed
fetch/parse (the `except` on lines 128-130 logs and continues), and
`some items` is the list of extracted `(title, desc)` pairs in document
order (`link` is extracted by the code but never used in the produced
deal, and the floating-point price extraction does not affect any
claim).  Everything after extraction — brand inference, truncation,
keying, deduplication, record construction — is modelled faithfully. -/

/-- One extracted RSS item: the `title` and `description`/`summary`
texts. -/
structure RssItem where
  title : String
  desc : String
deriving DecidableEq

/-- `_infer_brand_from_text` (lines 100-107): the first configured brand
that occurs as a substring of the text. -/
def infer_brand_from_text (text : String) (target_brands : List String) : Option String :=
  if text = "" ∨ target_brands.isEmpty then none
  else target_brands.find? (fun b => !(b == "") && strIn b text)

/-- The per-item processing of lines 146-177, up to the deduplication
check: skip empty titles, default the description to the title, infer
the brand from title-plus-description, and build the deal record
(price extraction abstracted away; `main_image_url` is always `""`). -/
def rssItemDeal (target_brands : List String) (today : String) (it : RssItem) :
    Option Deal :=
  if it.title = "" then none
  else
    let desc := if it.desc = "" then it.title else it.desc
    let combined := it.title ++ " " ++ desc
    match infer_brand_from_text combined target_brands with
    | none => none
    | some brand =>
      some { date := today
             brand := brand
             title := pyTake 80 it.title
             category := "RSS 优惠"
             tag := if strIn "限时" combined || strIn "促销" combined then "限时" else "优惠"
             activity := if desc = "" then "" else pyTake 120 desc
             desc := if desc = "" then it.title else pyTake 200 desc
             main_image_url := "" }

/-- The deduplication key of lines 161-164: `(brand, title[:80])`, which
for a constructed deal is exactly its `brand` and (already truncated)
`title` fields. -/
def dealKey (d : Deal) : String × String :=
  (d.brand, d.title)

/-- One iteration of the item loop (lines 134-177), threading
`(seen_keys, deals)`: a produced candidate is appended unless its key
was already seen. -/
def rssStep (target_brands : List String) (today : String)
    (st : List (String × String) × List Deal) (it : RssItem) :
    List (String × String) × List Deal :=
  match rssItemDeal target_brands today it with
  | none => st
  | some d => if dealKey d ∈ st.1 then st else (dealKey d :: st.1, st.2 ++ [d])

/-- The URL filter of line 123:
`(u.strip() for u in rss_urls if u and str(u).strip().startswith("http"))`. -/
def rssValidUrls (rss_urls : List String) : List String :=
  (rss_urls.filter (fun u => !(u == "") && pyStartsWith (pyStrip u) "http")).map pyStrip

/-- One iteration of the feed loop (lines 123-177): a failed fetch is
skipped, a successful one runs the item loop on the shared state. -/
def urlStep (net : String → Option (List RssItem)) (target_brands : List String)
    (today : String) (st : List (String × String) × List Deal) (url : String) :
    List (String × String) × List Deal :=
  match net url with
  | none => st
  | some items => items.foldl (rssStep target_brands today) st

/-- `_fetch_from_rss` (lines 110-179): iterate the valid feed URLs with a
single shared `seen_keys` set and deal accumulator, and return the
deals. -/
def fetch_from_rss (net : String → Option (List RssItem))
    (rss_urls target_brands : List String) (today : String) : List Deal :=
  ((rssValidUrls rss_urls).foldl (urlStep net target_brands today) ([], [])).2

/-- All candidate deals of one fetch, in feed-then-document order,
before deduplication. -/
def rssCandidates (net : String → Option (List RssItem))
    (rss_urls target_brands : List String) (today : String) : List Deal :=
  ((rssValidUrls rss_urls).flatMap (fun u => (net u).getD [])).filterMap
    (rssItemDeal target_brands today)

/-- Keep-first-per-key deduplication, the specification-side description
of the `seen_keys` logic. -/
def dedupByKey (seen : List (String × String)) : List Deal → List Deal
  | [] => []
  | d :: ds =>
    if dealKey d ∈ seen then dedupByKey seen ds
    else d :: dedupByKey (dealKey d :: seen) ds

/-! ## Mock data source (`_fetch_mock_deals`, lines 248-297) -/

/-- One of the three built-in presets (the float prices are not modelled;
no claim depends on them). -/
structure MockPreset where
  title : String
  category : String
  tag : String
  activity : String
  desc : String
deriving DecidableEq

/-- `base_presets` (lines 254-282). -/
def base_presets : List MockPreset :=
  [ { title := "熔岩蛋包汁汁和牛堡套餐", category := "新品推荐", tag := "新品上市",
      activity := "2月24日-3月22日：新品尝鲜限时优惠",
      desc := "软嫩滑蛋，轻薄蛋皮，120g 厚制和牛，口感多汁饱满。" },
    { title := "人气经典鸡腿堡+薯条+饮料", category := "人气热卖", tag := "人气热卖",
      activity := "午市时段任选第二份半价，限堂食或外带。",
      desc := "经典脆皮鸡腿堡搭配金黄薯条与冰爽气泡饮，工作日午餐优选。" },
    { title := "三人分享桶（鸡翅+鸡块+薯条）", category := "多人分享", tag := "聚会必点",
      activity := "周末及节假日限时加赠中份薯条一份。",
      desc := "适合三五好友小聚，丰富搭配，一桶搞定多种口味。" } ]

/-- The three built-in default brands (lines 251 and 317). -/
def defaultBrands : List String := ["肯德基", "麦当劳", "德克士"]

/-- `if not target_brands: target_brands = [...]` (lines 250-251 and
316-317). -/
def withDefaultBrands (target_brands : List String) : List String :=
  if target_brands.isEmpty then defaultBrands else target_brands

/-- Line 295: `f"https://example.com/{brand}/menu_{idx}.jpg"`. -/
def mockImageUrl (brand : String) (idx : Nat) : String :=
  "https://example.com/" ++ brand ++ "/menu_" ++ toString idx ++ ".jpg"

/-- `_fetch_mock_deals` (lines 248-297): three preset deals per entry of
the (defaulted) target brand list, in brand order then preset order. -/
def fetch_mock_deals (target_brands : List String) (today : String) : List Deal :=
  (withDefaultBrands target_brands).flatMap (fun brand =>
    base_presets.enum.map (fun p =>
      { date := today
        brand := brand
        title := p.2.title
        category := p.2.category
        tag := p.2.tag
        activity := p.2.activity
        desc := p.2.desc
        main_image_url := mockImageUrl brand p.1 }))

/-- The renderer's image decision (lines 527-531): strip the stored URL,
mark `example.com`/`example.org` URLs as placeholders, and attempt a
remote fetch only for non-placeholder `http` URLs. -/
def renderer_attempts_fetch (raw_url : String) : Bool :=
  let img_url := pyStrip raw_url
  pyStartsWith img_url "http"
    && !(strIn "example.com" img_url || strIn "example.org" img_url)

/-- Lines 528-558: the brand-glyph fallback is drawn exactly when no
remote image was pasted — either no fetch was attempted, or the fetch
(modelled by the `fetchOk` oracle) failed. -/
def renderer_draws_glyph (fetchOk : String → Bool) (raw_url : String) : Bool :=
  !(renderer_attempts_fetch raw_url && fetchOk (pyStrip raw_url))

/-! ## Data-source selection (`fetch_today_deals`, lines 300-329) -/

/-- Which data source `fetch_today_deals` actually uses. -/
inductive SourceChoice
  | rss (urls : List String)
  | api (url : String) (method : String)
  | mock
deriving DecidableEq

/-- The dispatch logic of lines 318-329:
`source = (data_source or "mock").strip().lower()`; `rss` is used only
when the URL list is nonempty, `api` only when the endpoint is a
nonempty string whose stripped form starts with `"http"`; everything
else falls back to mock. -/
def selectSource (data_source : String) (rss_urls : List String)
    (api_url api_method : String) : SourceChoice :=
  let source := pyLower (pyStrip (if data_source = "" then "mock" else data_source))
  if source = "rss" then
    if rss_urls.isEmpty then SourceChoice.mock else SourceChoice.rss rss_urls
  else if source = "api" then
    if api_url ≠ "" ∧ pyStartsWith (pyStrip api_url) "http" = true then
      SourceChoice.api (pyStrip api_url) (if api_method = "" then "get" else api_method)
    else SourceChoice.mock
  else SourceChoice.mock

/-- `fetch_today_deals` (lines 300-329): default the brand list, dispatch
on the selected source.  The API fetch (network + JSON mapping) is an
oracle `apiFetch`; no claim inspects its internals. -/
def fetch_today_deals (net : String → Option (List RssItem))
    (apiFetch : String → String → List Deal)
    (target_brands : List String) (data_source : String) (rss_urls : List String)
    (api_url api_method : String) (today : String) : List Deal :=
  let brands := withDefaultBrands target_brands
  match selectSource data_source rss_urls api_url api_method with
  | SourceChoice.rss urls => fetch_from_rss net urls brands today
  | SourceChoice.api u m => apiFetch u m
  | SourceChoice.mock => fetch_mock_deals brands today

/-- Network oracle used in concrete examples: every feed serves the same
single KFC item. -/
def netEx : String → Option (List RssItem) :=
  fun _ => some [{ title := "肯德基疯狂星期四 9.9 元套餐", desc := "肯德基优惠" }]

/-- Network oracle for the C5 counterexample: every feed would serve one
KFC item — showing that the empty result below does not come from the
network, but from the URL filter. -/
def cexNet : String → Option (List RssItem) :=
  fun _ => some [{ title := "肯德基疯狂星期四优惠", desc := "肯德基 9.9 元" }]

/-! ## Scheduled daily report (`_run_daily_report`, lines 865-893) -/

/-- Observable sends of the daily report run, one constructor per send
call site: the per-brand failure notice (line 875), the all-failed
summary notice (line 885), the introductory text (line 891) and a poster
image (line 893).  Each text/image is broadcast via the fan-out
routines, modelled separately for C7. -/
inductive ReportEvent
  | brandFailNotice (brand : String)
  | summaryNotice
  | intro
  | poster (path : String)
deriving DecidableEq

/-- The per-brand loop of `_run_daily_report` (lines 867-881): poster
generation is an oracle `gen` mapping a brand and its deals to
`some path` (success) or `none` (an exception).  Returns the failure
notices sent during the loop (in order) and `posters_to_send`;
`any_success` is exactly the non-emptiness of the latter. -/
def reportLoop (gen : String → List Deal → Option String) :
    List (String × List Deal) → List ReportEvent × List String
  | [] => ([], [])
  | g :: rest =>
    if g.2.isEmpty then reportLoop gen rest
    else
      match gen g.1 g.2 with
      | some path => ((reportLoop gen rest).1, path :: (reportLoop gen rest).2)
      | none =>
        (ReportEvent.brandFailNotice g.1 :: (reportLoop gen rest).1,
          (reportLoop gen rest).2)

/-- Lines 883-893: after the loop, either the all-failed summary (when no
poster was produced) or the intro text followed by the posters. -/
def daily_report_trace (gen : String → List Deal → Option String)
    (groups : List (String × List Deal)) : List ReportEvent :=
  if (reportLoop gen groups).2.isEmpty then
    (reportLoop gen groups).1 ++ [ReportEvent.summaryNotice]
  else
    (reportLoop gen groups).1
      ++ ReportEvent.intro :: (reportLoop gen groups).2.map ReportEvent.poster

/-- Poster generator used in concrete examples: brand `"A"` fails,
everything else renders to a fixed path. -/
def genEx : String → List Deal → Option String :=
  fun b _ => if b = "A" then none else some "poster.png"

/-! ## Delivery fan-out (`_send_image_to_all`, lines 910-936) -/

/-- Observable per-destination sends of `_send_image_to_all`, one
constructor per call site / logged failure. -/
inductive SendEvent
  | imageSent (origin : String) (path : String)
  | imageFailed (origin : String)
  | fallbackSent (origin : String) (text : String)
  | fallbackFailed (origin : String)
deriving DecidableEq

/-- `_build_group_origin` (lines 67-77). -/
def build_group_origin (g : String) : String :=
  "aiocqhttp:group:" ++ pyStrip g

/-- The fixed apology suffix of the degraded text message (line 930). -/
def apologySuffix : String :=
  "\n（图片发送失败，请联系管理员检查机器人文件读写权限。）"

/-- Python f-string rendering of a possibly-absent value (`None` prints
as `"None"`). -/
def pyFormatOpt : Option String → String
  | some s => s
  | none => "None"

/-- The degraded text of line 929-931: the original caption rendered into
the f-string, plus the fixed apology suffix. -/
def fallback_text (intro_text : Option String) : String :=
  pyFormatOpt intro_text ++ apologySuffix

/-- `_send_image_to_all` (lines 910-936): send outcomes are oracles
`imgOk`/`txtOk` on the destination origin (an exception inside
`send_message` is a `false` outcome).  Per destination: try the image;
on failure log it and try the degraded text; on failure of that too,
log and swallow.  The routine is a total function — it never raises —
and each destination's events depend only on that destination. -/
def send_image_to_all (imgOk txtOk : String → Bool) (target_groups : List String)
    (image_path : String) (intro_text : Option String) : List SendEvent :=
  target_groups.flatMap (fun g =>
    let origin := build_group_origin g
    if imgOk origin then [SendEvent.imageSent origin image_path]
    else if txtOk origin then
      [SendEvent.imageFailed origin, SendEvent.fallbackSent origin (fallback_text intro_text)]
    else [SendEvent.imageFailed origin, SendEvent.fallbackFailed origin])

/-- Image-send oracle used in concrete examples: only group `222`'s
origin accepts images. -/
def imgOkEx : String → Bool :=
  fun o => o == "aiocqhttp:group:222"

/-! ## Theorems -/

theorem fsStep_mem (b : String) (ks : List String) (d : Deal) :
    b ∈ fsStep ks d ↔ b ∈ ks ∨ normBrand d = b := by
  unfold fsStep
  by_cases h : normBrand d ∈ ks
  · rw [if_pos h]
    constructor
    · exact fun hb => Or.inl hb
    · rintro (hb | rfl)
      · exact hb
      · exact h
  · rw [if_neg h]
    simp [List.mem_append, eq_comm]

theorem foldl_fsStep_mem (deals : List Deal) :
    ∀ ks b, (b ∈ deals.foldl fsStep ks) ↔ b ∈ ks ∨ ∃ d ∈ deals, normBrand d = b := by
  induction deals with
  | nil => intro ks b; simp
  | cons d rest ih =>
    intro ks b
    rw [List.foldl_cons, ih, fsStep_mem]
    constructor
    · rintro ((hb | rfl) | ⟨e, he, rfl⟩)
      · exact Or.inl hb
      · exact Or.inr ⟨d, List.mem_cons_self d rest, rfl⟩
      · exact Or.inr ⟨e, List.mem_cons_of_mem _ he, rfl⟩
    · rintro (hb | ⟨e, he, rfl⟩)
      · exact Or.inl (Or.inl hb)
      · rcases List.mem_cons.1 he with rfl | he2
        · exact Or.inl (Or.inr rfl)
        · exact Or.inr ⟨e, he2, rfl⟩

theorem firstSeenBrands_mem (deals : List Deal) (b : String) :
    b ∈ firstSeenBrands deals ↔ ∃ d ∈ deals, normBrand d = b := by
  simpa [firstSeenBrands] using foldl_fsStep_mem deals [] b

theorem foldl_fsStep_nodup (deals : List Deal) :
    ∀ ks : List String, ks.Nodup → (deals.foldl fsStep ks).Nodup := by
  induction deals with
  | nil => intro ks h; simpa using h
  | cons d rest ih =>
    intro ks h
    rw [List.foldl_cons]
    apply ih
    unfold fsStep
    by_cases hm : normBrand d ∈ ks
    · rwa [if_pos hm]
    · rw [if_neg hm]
      simp [List.nodup_append, h, hm]

theorem firstSeenBrands_nodup (deals : List Deal) :
    (firstSeenBrands deals).Nodup :=
  foldl_fsStep_nodup deals [] (by simp)

/-- `brand_map` is exactly: one entry per first-seen brand, whose bucket
is the sublist of the input with that (normalized) brand, in original
order. -/
theorem brand_map_eq (deals : List Deal) :
    brand_map deals =
      (firstSeenBrands deals).map
        (fun b => (b, deals.filter (fun d => decide (normBrand d = b)))) := by
  induction deals using List.reverseRecOn with
  | nil => rfl
  | append_singleton l d ih =>
    have hbm : brand_map (l ++ [d]) = bmStep (brand_map l) d := by
      unfold brand_map
      rw [List.foldl_append]
      rfl
    have hfs : firstSeenBrands (l ++ [d]) = fsStep (firstSeenBrands l) d := by
      unfold firstSeenBrands
      rw [List.foldl_append]
      rfl
    have hkeys : (brand_map l).map Prod.fst = firstSeenBrands l := by
      rw [ih, List.map_map]
      exact List.map_id _
    rw [hbm, hfs]
    unfold bmStep fsStep
    rw [hkeys, ih]
    by_cases hB : normBrand d ∈ firstSeenBrands l
    · rw [if_pos hB, if_pos hB, List.map_map]
      apply List.map_congr_left
      intro b hb
      by_cases hbB : b = normBrand d
      · subst hbB
        simp [List.filter_append]
      · simp [List.filter_append, hbB, Ne.symm hbB]
    · rw [if_neg hB, if_neg hB, List.map_append]
      have hfilt : l.filter (fun e => decide (normBrand e = normBrand d)) = [] := by
        rw [List.filter_eq_nil_iff]
        intro e he hd
        exact hB ((firstSeenBrands_mem l (normBrand d)).2 ⟨e, he, by simpa using hd⟩)
      congr 1
      · apply List.map_congr_left
        intro b hb
        have hbB : normBrand d ≠ b := fun he => hB (he ▸ hb)
        simp [List.filter_append, hbB]
      · simp [List.filter_append, hfilt]

theorem foldl_prefFilter (keys : List String) (target : List String) :
    ∀ init : List String,
      target.foldl (fun acc b => if b ∈ keys then acc ++ [b] else acc) init
        = init ++ target.filter (fun b => decide (b ∈ keys)) := by
  induction target with
  | nil => intro init; simp
  | cons t ts ih =>
    intro init
    rw [List.foldl_cons]
    by_cases h : t ∈ keys
    · rw [if_pos h, ih]
      simp [List.filter_cons, h]
    · rw [if_neg h, ih]
      simp [List.filter_cons, h]

theorem foldl_dedupAppend (keys : List String) :
    ∀ acc : List String, keys.Nodup →
      keys.foldl (fun acc b => if b ∈ acc then acc else acc ++ [b]) acc
        = acc ++ keys.filter (fun b => decide (b ∉ acc)) := by
  induction keys with
  | nil => intro acc _; simp
  | cons k ks ih =>
    intro acc hnd
    have hknotks : k ∉ ks := (List.nodup_cons.1 hnd).1
    have hks : ks.Nodup := (List.nodup_cons.1 hnd).2
    rw [List.foldl_cons]
    by_cases h : k ∈ acc
    · rw [if_pos h, ih acc hks]
      simp [List.filter_cons, h]
    · rw [if_neg h, ih (acc ++ [k]) hks]
      have hcong : ks.filter (fun b => decide (b ∉ acc ++ [k]))
          = ks.filter (fun b => decide (b ∉ acc)) := by
        apply List.filter_congr
        intro b hb
        have hbk : b ≠ k := fun he => hknotks (he ▸ hb)
        simp [List.mem_append, hbk]
      rw [hcong]
      simp [List.filter_cons, h, List.append_assoc]

/-- Characterization of `ordered_brands` for duplicate-free key lists:
configured brands having a bucket first (in configuration order), then
the unconfigured keys in first-seen order. -/
theorem ordered_brands_eq (target keys : List String) (hk : keys.Nodup) :
    ordered_brands target keys
      = target.filter (fun b => decide (b ∈ keys))
        ++ keys.filter (fun b => decide (b ∉ target)) := by
  unfold ordered_brands
  rw [foldl_prefFilter keys target [], foldl_dedupAppend keys _ hk]
  simp only [List.nil_append]
  congr 1
  apply List.filter_congr
  intro b hb
  rw [decide_eq_decide]
  constructor
  · intro hnp ht
    exact hnp (List.mem_filter.2 ⟨ht, by simpa using hb⟩)
  · intro ht hp
    exact ht (List.mem_filter.1 hp).1

theorem mem_ordered_brands (target keys : List String) (hk : keys.Nodup) (b : String) :
    b ∈ ordered_brands target keys ↔ b ∈ keys := by
  rw [ordered_brands_eq target keys hk]
  simp only [List.mem_append, List.mem_filter]
  constructor
  · rintro (⟨_, h⟩ | ⟨h, _⟩)
    · simpa using h
    · exact h
  · intro h
    by_cases ht : b ∈ target
    · exact Or.inl ⟨ht, by simpa using h⟩
    · exact Or.inr ⟨h, by simpa using ht⟩

theorem find?_map_pair (f : String → List Deal) (b : String) :
    ∀ keys : List String, b ∈ keys →
      (keys.map (fun k => (k, f k))).find? (fun p => decide (p.1 = b))
        = some (b, f b) := by
  intro keys
  induction keys with
  | nil => intro h; simp at h
  | cons k ks ih =>
    intro hb
    rw [List.map_cons]
    by_cases hkb : k = b
    · subst hkb
      rw [List.find?_cons_of_pos]
      simp
    · rw [List.find?_cons_of_neg]
      · refine ih ?_
        rcases List.mem_cons.1 hb with rfl | h2
        · exact absurd rfl hkb
        · exact h2
      · simp [hkb]

theorem filterMap_eq_map_of_some {α β : Type} (f : α → Option β) (g : α → β) :
    ∀ l : List α, (∀ a ∈ l, f a = some (g a)) → l.filterMap f = l.map g := by
  intro l
  induction l with
  | nil => intro _; rfl
  | cons a l ih =>
    intro h
    rw [List.filterMap_cons, h a (List.mem_cons_self a l), List.map_cons,
      ih (fun x hx => h x (List.mem_cons_of_mem _ hx))]

/-- The grouped output is the `ordered_brands` list paired with the
original-order brand buckets. -/
theorem groupDeals_eq (target : List String) (deals : List Deal) :
    groupDeals target deals
      = (ordered_brands target (firstSeenBrands deals)).map
          (fun b => (b, deals.filter (fun d => decide (normBrand d = b)))) := by
  have hkeys : (brand_map deals).map Prod.fst = firstSeenBrands deals := by
    rw [brand_map_eq, List.map_map]
    exact List.map_id _
  simp only [groupDeals]
  rw [hkeys]
  apply filterMap_eq_map_of_some
  intro b hb
  have hbk : b ∈ firstSeenBrands deals :=
    (mem_ordered_brands target _ (firstSeenBrands_nodup deals) b).1 hb
  rw [brand_map_eq, find?_map_pair _ b _ hbk]
  rfl

/-- C1 (amended to duplicate-free preferred orders): grouping partitions
the deals into per-brand buckets keyed by the stripped brand (empty
replaced by the placeholder `"其他品牌"`), each bucket is the
original-order sublist of its brand's deals and is never empty, the
bucket keys are distinct and ordered as: preferred brands with at least
one deal in preferred order, then remaining brands in first-seen order;
every deal's brand appears.  `groupDeals` is a function of its inputs,
so the result is deterministic. -/
theorem grouping_orders_and_partitions (deals : List Deal) (target : List String)
    (htarget : target.Nodup) :
    (∀ p ∈ groupDeals target deals,
        p.2 = deals.filter (fun d => decide (normBrand d = p.1)) ∧ p.2 ≠ []) ∧
    ((groupDeals target deals).map Prod.fst).Nodup ∧
    (groupDeals target deals).map Prod.fst
      = target.filter (fun b => decide (∃ d ∈ deals, normBrand d = b))
        ++ (firstSeenBrands deals).filter (fun b => decide (b ∉ target)) ∧
    (∀ d ∈ deals, normBrand d ∈ (groupDeals target deals).map Prod.fst) := by
  have hfsnd := firstSeenBrands_nodup deals
  have hkeysEq : (groupDeals target deals).map Prod.fst
      = ordered_brands target (firstSeenBrands deals) := by
    rw [groupDeals_eq, List.map_map]
    exact List.map_id _
  have horder : (groupDeals target deals).map Prod.fst
      = target.filter (fun b => decide (∃ d ∈ deals, normBrand d = b))
        ++ (firstSeenBrands deals).filter (fun b => decide (b ∉ target)) := by
    rw [hkeysEq, ordered_brands_eq target _ hfsnd]
    congr 1
    apply List.filter_congr
    intro b hb
    rw [decide_eq_decide]
    exact firstSeenBrands_mem deals b
  refine ⟨?_, ?_, horder, ?_⟩
  · intro p hp
    rw [groupDeals_eq] at hp
    rcases List.mem_map.1 hp with ⟨b, hbmem, rfl⟩
    refine ⟨rfl, ?_⟩
    have hbk : b ∈ firstSeenBrands deals :=
      (mem_ordered_brands target _ hfsnd b).1 hbmem
    rcases (firstSeenBrands_mem deals b).1 hbk with ⟨d, hd, hdb⟩
    have : d ∈ deals.filter (fun e => decide (normBrand e = b)) :=
      List.mem_filter.2 ⟨hd, by simpa using hdb⟩
    exact List.ne_nil_of_mem this
  · rw [horder]
    apply List.Nodup.append
    · exact htarget.filter _
    · exact hfsnd.filter _
    · intro b hb1 hb2
      have ht1 : b ∈ target := (List.mem_filter.1 hb1).1
      have ht2 : b ∉ target := by
        have := (List.mem_filter.1 hb2).2
        simpa using this
      exact ht2 ht1
  · intro d hd
    rw [hkeysEq, mem_ordered_brands target _ hfsnd]
    exact (firstSeenBrands_mem deals (normBrand d)).2 ⟨d, hd, rfl⟩

/-- Witness for C1: the spec's own example — deals
`[d1(A), d2(B), d3(A)]` with preferred order `[B, A]` group as
`[B -> [d2], A -> [d1, d3]]`, with duplicate-free keys. -/
theorem grouping_orders_and_partitions_witness :
    groupDeals ["B", "A"] [exDealA1, exDealB2, exDealA3]
      = [("B", [exDealB2]), ("A", [exDealA1, exDealA3])] ∧
    ((groupDeals ["B", "A"] [exDealA1, exDealB2, exDealA3]).map Prod.fst).Nodup := by
  constructor
  · decide
  · exact (grouping_orders_and_partitions [exDealA1, exDealB2, exDealA3] ["B", "A"]
      (by decide)).2.1

/-- C1 counterexample: a preferred order that lists the same brand twice
makes the code emit that brand's bucket twice, so the output is not a
partition into per-brand buckets (the claim, quantified over every
preferred order, predicts the brand's single bucket exactly once). -/
theorem grouping_duplicate_preferred_counterexample :
    (groupDeals ["肯德基", "肯德基"] [kfcDeal]).map Prod.fst = ["肯德基", "肯德基"] ∧
    ¬ ((groupDeals ["肯德基", "肯德基"] [kfcDeal]).map Prod.fst).Nodup ∧
    groupDeals ["肯德基", "肯德基"] [kfcDeal]
      = [("肯德基", [kfcDeal]), ("肯德基", [kfcDeal])] := by
  refine ⟨by decide, by decide, by decide⟩

/-- The card loop starting at the top of the `i`-th card slot draws
`min (length) (5 - i)` cards: the canvas has room for exactly five. -/
theorem drawLoop_min (deals : List Deal) :
    ∀ i, i ≤ 5 →
      drawLoop (contentStartY + i * (cardHeight + cardGap)) deals
        = min deals.length (5 - i) := by
  induction deals with
  | nil => intro i hi; simp [drawLoop]
  | cons d rest ih =>
    intro i hi
    by_cases h5 : i = 5
    · subst h5
      have hcond : contentStartY + 5 * (cardHeight + cardGap) + cardHeight + 40
          > canvasHeight := by
        simp only [contentStartY, headerHeight, cardHeight, cardGap, canvasHeight]
        omega
      simp only [drawLoop, if_pos hcond]
      simp
    · have hcond : ¬ (contentStartY + i * (cardHeight + cardGap) + cardHeight + 40
          > canvasHeight) := by
        simp only [contentStartY, headerHeight, cardHeight, cardGap, canvasHeight]
        omega
      simp only [drawLoop, if_neg hcond]
      have harg : contentStartY + i * (cardHeight + cardGap) + cardHeight + cardGap
          = contentStartY + (i + 1) * (cardHeight + cardGap) := by ring
      rw [harg, ih (i + 1) (by omega)]
      simp only [List.length_cons]
      omega

/-- C2: cards start at `y = 260 + 40`, each card is 260 units tall with a
30-unit gap; before drawing a card the loop checks
`y + 260 + 40 > 1920` and, if so, silently stops.  Consequently the
number of cards drawn equals `min N 5`, which is the largest `k ≤ N`
whose `k`-th card bottom edge plus 40 stays within the canvas; the
remaining deals produce no card and no error (the loop is total). -/
theorem pagination_cutoff (deals : List Deal) :
    drawnCardCount deals = min deals.length 5 ∧
    drawnCardCount deals ≤ deals.length ∧
    (∀ k, k ≤ deals.length →
      (k = 0 ∨ cardTopY (k - 1) + cardHeight + 40 ≤ canvasHeight) →
      k ≤ drawnCardCount deals) ∧
    (drawnCardCount deals = 0 ∨
      cardTopY (drawnCardCount deals - 1) + cardHeight + 40 ≤ canvasHeight) := by
  have hmin : drawnCardCount deals = min deals.length 5 := by
    have h := drawLoop_min deals 0 (by omega)
    simpa [drawnCardCount] using h
  refine ⟨hmin, ?_, ?_, ?_⟩
  · omega
  · intro k hk hfit
    rcases hfit with h0 | hfit
    · omega
    · simp only [cardTopY, contentStartY, headerHeight, cardHeight, cardGap,
        canvasHeight] at hfit
      omega
  · rcases Nat.eq_zero_or_pos (drawnCardCount deals) with h0 | hpos
    · exact Or.inl h0
    · right
      simp only [cardTopY, contentStartY, headerHeight, cardHeight, cardGap,
        canvasHeight]
      omega

/-- Witness for C2: seven deals yield exactly five drawn cards. -/
theorem pagination_cutoff_witness :
    drawnCardCount (List.replicate 7 ({} : Deal)) = 5 := by
  simpa using (pagination_cutoff (List.replicate 7 ({} : Deal))).1

/-- C3: `_generate_poster_sync` fails with `ValueError("deals is empty")`
on an empty deal list before producing anything; an absent `brand_name`
defaults to the first deal's stripped brand, falling back to the generic
label `"快餐品牌"` when that brand strips to empty; a supplied name is
used as-is. -/
theorem render_empty_input_and_brand_default (deals : List Deal) (bn : Option String) :
    (deals = [] → generate_poster_check deals bn = Except.error "deals is empty") ∧
    (∀ d rest, deals = d :: rest → bn = none →
      generate_poster_check deals bn =
        Except.ok (if pyStrip d.brand = "" then "快餐品牌" else pyStrip d.brand)) ∧
    (∀ d rest b, deals = d :: rest → bn = some b →
      generate_poster_check deals bn = Except.ok b) := by
  refine ⟨?_, ?_, ?_⟩
  · intro h; subst h; rfl
  · intro d rest hd hbn; subst hd; subst hbn; simp [generate_poster_check]
  · intro d rest b hd hbn; subst hd; subst hbn; simp [generate_poster_check]

/-- Witness for C3: the empty deal list is rejected, and a one-deal list
with a whitespace-padded brand defaults the name to the stripped brand. -/
theorem render_empty_input_and_brand_default_witness :
    generate_poster_check [] none = Except.error "deals is empty" ∧
    generate_poster_check [{ brand := " 肯德基 " }] none = Except.ok "肯德基" := by
  constructor
  · exact (render_empty_input_and_brand_default [] none).1 rfl
  · have h := (render_empty_input_and_brand_default [{ brand := " 肯德基 " }] none).2.1
      { brand := " 肯德基 " } [] rfl rfl
    rw [h]
    rfl

/-- C4: theme resolution never fails: `none` and every unrecognized key
resolve to the identical built-in default configuration, while
`"crazy_thursday"` resolves to its registered configuration, whose
header color `#e4002b` differs from the default's `#ff6b3b`. -/
theorem theme_resolution_total :
    resolveTheme none = DEFAULT_THEME ∧
    (∀ k, k ≠ "crazy_thursday" → resolveTheme (some k) = DEFAULT_THEME) ∧
    resolveTheme (some "crazy_thursday") = crazyThursdayTheme ∧
    crazyThursdayTheme.header_color = "#e4002b" ∧
    DEFAULT_THEME.header_color = "#ff6b3b" ∧
    crazyThursdayTheme.header_color ≠ DEFAULT_THEME.header_color := by
  refine ⟨rfl, ?_, by decide, rfl, rfl, by decide⟩
  intro k hk
  simp [resolveTheme, THEME_CONFIG_get, hk]

/-- Witness for C4: a concrete unrecognized key resolves to the default
configuration. -/
theorem theme_resolution_total_witness :
    resolveTheme (some "nonexistent_key") = DEFAULT_THEME :=
  theme_resolution_total.2.1 "nonexistent_key" (by decide)

theorem foldl_rssStep_eq (tb : List String) (today : String) :
    ∀ (items : List RssItem) (seen : List (String × String)) (acc : List Deal),
      items.foldl (rssStep tb today) (seen, acc)
        = (((dedupByKey seen (items.filterMap (rssItemDeal tb today))).map dealKey).reverse
             ++ seen,
           acc ++ dedupByKey seen (items.filterMap (rssItemDeal tb today))) := by
  intro items
  induction items with
  | nil => intro seen acc; simp [dedupByKey]
  | cons it items ih =>
    intro seen acc
    rw [List.foldl_cons, List.filterMap_cons]
    cases hd : rssItemDeal tb today it with
    | none =>
      have hstep : rssStep tb today (seen, acc) it = (seen, acc) := by
        unfold rssStep; rw [hd]
      rw [hstep, ih]
    | some d =>
      by_cases hk : dealKey d ∈ seen
      · have hstep : rssStep tb today (seen, acc) it = (seen, acc) := by
          unfold rssStep; rw [hd]; simp [hk]
        rw [hstep, ih]
        simp [dedupByKey, hk]
      · have hstep : rssStep tb today (seen, acc) it = (dealKey d :: seen, acc ++ [d]) := by
          unfold rssStep; rw [hd]; simp [hk]
        rw [hstep, ih]
        simp [dedupByKey, hk, List.reverse_cons, List.append_assoc]

theorem dedupByKey_append (l2 : List Deal) :
    ∀ (l1 : List Deal) (seen : List (String × String)),
      dedupByKey seen (l1 ++ l2)
        = dedupByKey seen l1
          ++ dedupByKey (((dedupByKey seen l1).map dealKey).reverse ++ seen) l2 := by
  intro l1
  induction l1 with
  | nil => intro seen; simp [dedupByKey]
  | cons d l1 ih =>
    intro seen
    by_cases hk : dealKey d ∈ seen
    · simp only [List.cons_append, dedupByKey, if_pos hk]
      exact ih seen
    · simp only [List.cons_append, dedupByKey, if_neg hk, List.append_eq]
      rw [ih (dealKey d :: seen)]
      simp [List.reverse_cons, List.append_assoc]

theorem foldl_urlStep_eq (net : String → Option (List RssItem)) (tb : List String)
    (today : String) :
    ∀ (urls : List String) (seen : List (String × String)) (acc : List Deal),
      urls.foldl (urlStep net tb today) (seen, acc)
        = (((dedupByKey seen
              ((urls.flatMap (fun u => (net u).getD [])).filterMap
                (rssItemDeal tb today))).map dealKey).reverse ++ seen,
           acc ++ dedupByKey seen
              ((urls.flatMap (fun u => (net u).getD [])).filterMap
                (rssItemDeal tb today))) := by
  intro urls
  induction urls with
  | nil => intro seen acc; simp [dedupByKey]
  | cons u urls ih =>
    intro seen acc
    rw [List.foldl_cons, List.flatMap_cons]
    cases hu : net u with
    | none =>
      have hstep : urlStep net tb today (seen, acc) u = (seen, acc) := by
        unfold urlStep; rw [hu]
      rw [hstep, ih]
      simp
    | some items =>
      have hstep : urlStep net tb today (seen, acc) u
          = items.foldl (rssStep tb today) (seen, acc) := by
        unfold urlStep; rw [hu]
      rw [hstep, foldl_rssStep_eq tb today items seen acc, ih]
      simp only [Option.getD_some, List.filterMap_append, dedupByKey_append]
      simp [List.map_append, List.reverse_append, List.append_assoc]

theorem dedupByKey_nodup_aux :
    ∀ (l : List Deal) (seen : List (String × String)),
      ((dedupByKey seen l).map dealKey).Nodup
      ∧ ∀ k ∈ (dedupByKey seen l).map dealKey, k ∉ seen := by
  intro l
  induction l with
  | nil => intro seen; simp [dedupByKey]
  | cons d ds ih =>
    intro seen
    by_cases hk : dealKey d ∈ seen
    · simp only [dedupByKey, if_pos hk]
      exact ih seen
    · simp only [dedupByKey, if_neg hk]
      rcases ih (dealKey d :: seen) with ⟨hnd, hnotin⟩
      constructor
      · rw [List.map_cons, List.nodup_cons]
        exact ⟨fun hmem => (hnotin _ hmem) (List.mem_cons_self _ _), hnd⟩
      · intro k hkmem
        rw [List.map_cons] at hkmem
        rcases List.mem_cons.1 hkmem with rfl | h2
        · exact hk
        · intro hks
          exact (hnotin k h2) (List.mem_cons_of_mem _ hks)

theorem dedupByKey_first :
    ∀ (l : List Deal) (seen : List (String × String)) (d : Deal),
      d ∈ dedupByKey seen l →
        dealKey d ∉ seen ∧
        ∃ pre post, l = pre ++ d :: post ∧
          ∀ e ∈ pre, dealKey e = dealKey d → dealKey e ∈ seen := by
  intro l
  induction l with
  | nil => intro seen d hd; simp [dedupByKey] at hd
  | cons a ds ih =>
    intro seen d hd
    by_cases hk : dealKey a ∈ seen
    · rw [dedupByKey, if_pos hk] at hd
      rcases ih seen d hd with ⟨hns, pre, post, heq, hpre⟩
      refine ⟨hns, a :: pre, post, by rw [heq]; rfl, ?_⟩
      intro e he hkey
      rcases List.mem_cons.1 he with rfl | he2
      · exact hk
      · exact hpre e he2 hkey
    · rw [dedupByKey, if_neg hk] at hd
      rcases List.mem_cons.1 hd with rfl | hd2
      · refine ⟨hk, [], ds, rfl, ?_⟩
        intro e he
        simp at he
      · rcases ih (dealKey a :: seen) d hd2 with ⟨hns, pre, post, heq, hpre⟩
        have hne : dealKey d ∉ seen := fun h => hns (List.mem_cons_of_mem _ h)
        have hnea : dealKey a ≠ dealKey d := fun h => hns (h ▸ List.mem_cons_self _ _)
        refine ⟨hne, a :: pre, post, by rw [heq]; rfl, ?_⟩
        intro e he hkey
        rcases List.mem_cons.1 he with rfl | he2
        · exact absurd hkey hnea
        · rcases List.mem_cons.1 (hpre e he2 hkey) with h1 | h2
          · exact absurd (h1 ▸ hkey) hnea
          · exact h2

/-- C10: one RSS fetch deduplicates across all configured feeds on the
key `(brand, title truncated to 80 characters)`: the result equals the
keep-first-per-key filtering of the full candidate stream, its keys are
pairwise distinct, and each emitted deal is the first candidate with its
key — every later candidate with the same key, from any feed, is
skipped. -/
theorem rss_dedup_first_occurrence (net : String → Option (List RssItem))
    (rss_urls target_brands : List String) (today : String) :
    fetch_from_rss net rss_urls target_brands today
      = dedupByKey [] (rssCandidates net rss_urls target_brands today) ∧
    ((fetch_from_rss net rss_urls target_brands today).map dealKey).Nodup ∧
    (∀ d ∈ fetch_from_rss net rss_urls target_brands today,
      ∃ pre post,
        rssCandidates net rss_urls target_brands today = pre ++ d :: post ∧
        ∀ e ∈ pre, dealKey e ≠ dealKey d) := by
  have heq : fetch_from_rss net rss_urls target_brands today
      = dedupByKey [] (rssCandidates net rss_urls target_brands today) := by
    unfold fetch_from_rss rssCandidates
    rw [foldl_urlStep_eq net target_brands today (rssValidUrls rss_urls) [] []]
    rfl
  refine ⟨heq, ?_, ?_⟩
  · rw [heq]
    exact (dedupByKey_nodup_aux _ []).1
  · intro d hd
    rw [heq] at hd
    rcases dedupByKey_first _ [] d hd with ⟨_, pre, post, hsplit, hpre⟩
    exact ⟨pre, post, hsplit,
      fun e he hk => absurd (hpre e he hk) (List.not_mem_nil _)⟩

/-- Witness for C10: two feeds serving the identical item yield one deal,
with duplicate-free keys. -/
theorem rss_dedup_first_occurrence_witness :
    (fetch_from_rss netEx ["http://a.example/rss", "http://b.example/rss"]
      ["肯德基"] "2026-10-12").length = 1 ∧
    ((fetch_from_rss netEx ["http://a.example/rss", "http://b.example/rss"]
      ["肯德基"] "2026-10-12").map dealKey).Nodup := by
  constructor
  · decide
  · exact (rss_dedup_first_occurrence netEx ["http://a.example/rss", "http://b.example/rss"]
      ["肯德基"] "2026-10-12").2.1

theorem string_data_append (s t : String) : (s ++ t).data = s.data ++ t.data := rfl

theorem isPrefixOf_append_self (n : List Char) :
    ∀ t : List Char, n.isPrefixOf (n ++ t) = true := by
  induction n with
  | nil => intro t; cases t <;> rfl
  | cons c cs ih =>
    intro t
    simp only [List.cons_append, List.isPrefixOf, beq_self_eq_true, Bool.true_and]
    exact ih t

theorem strInAux_append_left (n : List Char) (p : List Char) :
    ∀ h : List Char, strInAux n h = true → strInAux n (p ++ h) = true := by
  induction p with
  | nil => intro h hh; exact hh
  | cons c cs ih =>
    intro h hh
    rw [List.cons_append, strInAux]
    rw [ih h hh]
    simp

theorem strInAux_self_append (n t : List Char) :
    strInAux n (n ++ t) = true := by
  cases n with
  | nil =>
    cases t with
    | nil => rfl
    | cons c cs =>
      rw [List.nil_append, strInAux]
      simp [List.isPrefixOf]
  | cons c cs =>
    rw [List.cons_append, strInAux]
    have h := isPrefixOf_append_self (c :: cs) t
    rw [List.cons_append] at h
    rw [h]
    simp

/-- If a string's character data splits as `p ++ needle ++ t`, Python's
`needle in s` is true. -/
theorem strIn_of_parts (needle hay : String) (p t : List Char)
    (h : hay.data = p ++ (needle.data ++ t)) : strIn needle hay = true := by
  unfold strIn
  rw [h]
  exact strInAux_append_left _ p _ (strInAux_self_append _ t)

/-- Stripping is the identity on a string that starts and ends with
non-whitespace characters. -/
theorem pyStripList_of_ends (a z : Char) (mid : List Char)
    (ha : a.isWhitespace = false) (hz : z.isWhitespace = false) :
    pyStripList (a :: (mid ++ [z])) = a :: (mid ++ [z]) := by
  unfold pyStripList
  have h1 : (a :: (mid ++ [z])).dropWhile Char.isWhitespace = a :: (mid ++ [z]) := by
    simp [List.dropWhile_cons, ha]
  rw [h1]
  have h2 : (a :: (mid ++ [z])).reverse = z :: (mid.reverse ++ [a]) := by
    simp
  rw [h2]
  have h3 : (z :: (mid.reverse ++ [a])).dropWhile Char.isWhitespace
      = z :: (mid.reverse ++ [a]) := by
    simp [List.dropWhile_cons, hz]
  rw [h3, ← h2, List.reverse_reverse]

theorem mockImageUrl_shape (brand : String) (idx : Nat) :
    (mockImageUrl brand idx).data
      = "https://".data ++ ("example.com".data
          ++ ("/".data ++ (brand.data ++ ("/menu_".data
          ++ ((toString idx).data ++ ".jpg".data))))) := by
  have hsplit : ("https://example.com/" : String)
      = "https://" ++ "example.com" ++ "/" := by decide
  unfold mockImageUrl
  rw [hsplit]
  simp [string_data_append, List.append_assoc]

theorem mockImageUrl_strip (brand : String) (idx : Nat) :
    pyStrip (mockImageUrl brand idx) = mockImageUrl brand idx := by
  have hdata : (mockImageUrl brand idx).data
      = 'h' :: (("ttps://example.com/".data ++ (brand.data ++ ("/menu_".data
          ++ ((toString idx).data ++ ".jp".data)))) ++ ['g']) := by
    have h1 : ("https://example.com/" : String).data
        = 'h' :: "ttps://example.com/".data := by decide
    have h2 : (".jpg" : String).data = ".jp".data ++ ['g'] := by decide
    unfold mockImageUrl
    simp [string_data_append, h1, h2, List.append_assoc]
  unfold pyStrip
  rw [hdata, pyStripList_of_ends _ _ _ (by decide) (by decide), ← hdata]

theorem mockImageUrl_placeholder (brand : String) (idx : Nat) :
    strIn "example.com" (pyStrip (mockImageUrl brand idx)) = true := by
  rw [mockImageUrl_strip]
  exact strIn_of_parts _ _ ("https://".data)
    ("/".data ++ (brand.data ++ ("/menu_".data ++ ((toString idx).data ++ ".jpg".data))))
    (mockImageUrl_shape brand idx)

theorem renderer_attempts_fetch_mockUrl (brand : String) (idx : Nat) :
    renderer_attempts_fetch (mockImageUrl brand idx) = false := by
  simp only [renderer_attempts_fetch]
  rw [mockImageUrl_placeholder brand idx]
  simp

theorem flatMap_triple_length (l : List String) :
    (l.flatMap (fun b => [b, b, b])).length = 3 * l.length := by
  induction l with
  | nil => rfl
  | cons b bs ih =>
    rw [List.flatMap_cons, List.length_append, ih]
    simp [List.length_cons]
    omega

theorem flatMap_triple_count (b : String) (l : List String) :
    (l.flatMap (fun x => [x, x, x])).count b = 3 * l.count b := by
  induction l with
  | nil => rfl
  | cons x xs ih =>
    rw [List.flatMap_cons, List.count_append, ih]
    by_cases h : x = b
    · subst h
      have h1 : [x, x, x].count x = 3 := by simp
      have h2 : (x :: xs).count x = xs.count x + 1 := by simp [List.count_cons]
      rw [h1, h2]
      ring
    · have h1 : [x, x, x].count b = 0 := by simp [List.count_cons, h]
      have h2 : (x :: xs).count b = xs.count b := by simp [List.count_cons, h]
      rw [h1, h2]
      ring

theorem fetch_mock_deals_brands (target_brands : List String) (today : String) :
    (fetch_mock_deals target_brands today).map (fun d => d.brand)
      = (withDefaultBrands target_brands).flatMap (fun b => [b, b, b]) := by
  unfold fetch_mock_deals
  rw [List.map_flatMap]
  have hinner : (fun brand => (base_presets.enum.map (fun p =>
      ({ date := today, brand := brand, title := p.2.title, category := p.2.category,
         tag := p.2.tag, activity := p.2.activity, desc := p.2.desc,
         main_image_url := mockImageUrl brand p.1 } : Deal))).map (fun d => d.brand))
      = (fun b : String => [b, b, b]) := by
    funext b
    rfl
  rw [hinner]

/-- C9 (amended to duplicate-free brand lists within the per-brand
count): the mock source emits exactly three preset deals per entry of
the target brand list, in the given order (three built-in brands are
substituted when the list is empty, so the result is never empty); a
brand listed `k` times yields `3k` records.  Every mock record's image
URL is on the `example.com` sentinel domain, which the renderer
classifies as a placeholder, so it never attempts a remote fetch and —
whatever a remote fetch would have returned — always draws the
brand-glyph fallback. -/
theorem mock_deals_shape (target_brands : List String) (today : String) :
    (fetch_mock_deals target_brands today).map (fun d => d.brand)
      = (withDefaultBrands target_brands).flatMap (fun b => [b, b, b]) ∧
    (∀ b : String,
      ((fetch_mock_deals target_brands today).map (fun d => d.brand)).count b
        = 3 * (withDefaultBrands target_brands).count b) ∧
    withDefaultBrands [] = ["肯德基", "麦当劳", "德克士"] ∧
    fetch_mock_deals target_brands today ≠ [] ∧
    (∀ d ∈ fetch_mock_deals target_brands today,
      strIn "example.com" (pyStrip d.main_image_url) = true ∧
      renderer_attempts_fetch d.main_image_url = false ∧
      ∀ fetchOk : String → Bool, renderer_draws_glyph fetchOk d.main_image_url = true) := by
  refine ⟨fetch_mock_deals_brands target_brands today, ?_, rfl, ?_, ?_⟩
  · intro b
    rw [fetch_mock_deals_brands, flatMap_triple_count]
  · have hlen : (fetch_mock_deals target_brands today).length
        = 3 * (withDefaultBrands target_brands).length := by
      have := congrArg List.length (fetch_mock_deals_brands target_brands today)
      rw [List.length_map] at this
      rw [this, flatMap_triple_length]
    have hbrands : (withDefaultBrands target_brands).length ≠ 0 := by
      unfold withDefaultBrands
      by_cases h : target_brands.isEmpty
      · rw [if_pos h]; decide
      · rw [if_neg h]
        intro hlen0
        exact h (List.isEmpty_iff.2 (List.length_eq_zero.1 hlen0))
    intro hnil
    have h0 : (fetch_mock_deals target_brands today).length = 0 := by
      rw [hnil]; rfl
    rw [hlen] at h0
    rcases Nat.mul_eq_zero.1 h0 with h3 | h4
    · omega
    · exact hbrands h4
  · intro d hd
    unfold fetch_mock_deals at hd
    rcases List.mem_flatMap.1 hd with ⟨b, _, hmem⟩
    rcases List.mem_map.1 hmem with ⟨p, _, rfl⟩
    refine ⟨mockImageUrl_placeholder b p.1, renderer_attempts_fetch_mockUrl b p.1, ?_⟩
    intro fetchOk
    simp [renderer_draws_glyph, renderer_attempts_fetch_mockUrl b p.1]

/-- Witness for C9: the empty brand list yields the three default brands
(nine nonempty records), and a single listed brand gets exactly three. -/
theorem mock_deals_shape_witness :
    fetch_mock_deals [] "2026-10-12" ≠ [] ∧
    ((fetch_mock_deals ["汉堡王"] "2026-10-12").map (fun d => d.brand)).count "汉堡王"
      = 3 := by
  constructor
  · exact (mock_deals_shape [] "2026-10-12").2.2.2.1
  · have h := (mock_deals_shape ["汉堡王"] "2026-10-12").2.1 "汉堡王"
    rw [h]
    decide

/-- C9 counterexample: a target list naming the same brand twice makes
the mock source return six records for that brand, not the three the
claim promises for every target brand list. -/
theorem mock_deals_duplicate_brand_counterexample :
    ((fetch_mock_deals ["肯德基", "肯德基"] "2026-10-12").filter
        (fun d => decide (d.brand = "肯德基"))).length = 6 := by
  decide

/-- C5 (amended): for the `rss` source, only an *empty* URL list falls
back to the built-in mock source — a nonempty list of invalid (non-http)
URLs stays on the rss path, whose per-URL filter then skips every URL
and returns the empty deal list; for the `api` source, a missing or
non-http endpoint does fall back to mock. -/
theorem data_source_fallback (net : String → Option (List RssItem))
    (apiFetch : String → String → List Deal) (tb : List String) (ds : String)
    (rss_urls : List String) (api_url api_method today : String) :
    (pyLower (pyStrip (if ds = "" then "mock" else ds)) = "rss" → rss_urls = [] →
      fetch_today_deals net apiFetch tb ds rss_urls api_url api_method today
        = fetch_mock_deals (withDefaultBrands tb) today) ∧
    (pyLower (pyStrip (if ds = "" then "mock" else ds)) = "api" →
      (api_url = "" ∨ pyStartsWith (pyStrip api_url) "http" = false) →
      fetch_today_deals net apiFetch tb ds rss_urls api_url api_method today
        = fetch_mock_deals (withDefaultBrands tb) today) ∧
    (pyLower (pyStrip (if ds = "" then "mock" else ds)) = "rss" → rss_urls ≠ [] →
      fetch_today_deals net apiFetch tb ds rss_urls api_url api_method today
        = fetch_from_rss net rss_urls (withDefaultBrands tb) today) ∧
    ((∀ u ∈ rss_urls, u = "" ∨ pyStartsWith (pyStrip u) "http" = false) →
      fetch_from_rss net rss_urls (withDefaultBrands tb) today = []) := by
  refine ⟨?_, ?_, ?_, ?_⟩
  · intro hsrc hurls
    subst hurls
    simp only [fetch_today_deals, selectSource]
    rw [hsrc]
    simp
  · intro hsrc hbad
    simp only [fetch_today_deals, selectSource]
    rw [hsrc]
    have hcond : ¬ (api_url ≠ "" ∧ pyStartsWith (pyStrip api_url) "http" = true) := by
      rcases hbad with h1 | h2
      · intro hc; exact hc.1 h1
      · intro hc; rw [hc.2] at h2; simp at h2
    simp [hcond]
  · intro hsrc hurls
    simp only [fetch_today_deals, selectSource]
    rw [hsrc]
    have hne : ¬ rss_urls.isEmpty := fun h => hurls (List.isEmpty_iff.1 h)
    simp [hne]
  · intro hall
    unfold fetch_from_rss
    have hvalid : rssValidUrls rss_urls = [] := by
      unfold rssValidUrls
      have : rss_urls.filter (fun u => !(u == "") && pyStartsWith (pyStrip u) "http") = [] := by
        rw [List.filter_eq_nil_iff]
        intro u hu
        rcases hall u hu with h1 | h2
        · subst h1
          decide
        · simp [h2]
      rw [this]
      rfl
    rw [hvalid]
    rfl

/-- C5 counterexample: `data_source = "rss"` with a nonempty list holding
one non-http URL does *not* fall back to the mock source — the selector
stays on rss and the fetch returns `[]`, while the mock source would
have returned a nonempty list. -/
theorem rss_invalid_urls_no_mock_fallback :
    selectSource "rss" ["ftp://deals.invalid/feed"] "" "get"
      = SourceChoice.rss ["ftp://deals.invalid/feed"] ∧
    fetch_today_deals cexNet (fun _ _ => []) ["肯德基"] "rss"
      ["ftp://deals.invalid/feed"] "" "get" "2026-10-12" = [] ∧
    fetch_mock_deals ["肯德基"] "2026-10-12" ≠ [] := by
  refine ⟨by decide, by decide, by decide⟩

/-- Witness for C5: an empty rss URL list and an invalid api endpoint
both fall back to the mock source. -/
theorem data_source_fallback_witness :
    fetch_today_deals cexNet (fun _ _ => []) ["肯德基"] "rss" [] "" "get" "2026-10-12"
      = fetch_mock_deals (withDefaultBrands ["肯德基"]) "2026-10-12" ∧
    fetch_today_deals cexNet (fun _ _ => []) ["肯德基"] "api" [] "not-a-url" "get" "2026-10-12"
      = fetch_mock_deals (withDefaultBrands ["肯德基"]) "2026-10-12" := by
  constructor
  · exact (data_source_fallback cexNet (fun _ _ => []) ["肯德基"] "rss" []
      "" "get" "2026-10-12").1 (by decide) rfl
  · exact (data_source_fallback cexNet (fun _ _ => []) ["肯德基"] "api" []
      "not-a-url" "get" "2026-10-12").2.1 (by decide) (Or.inr (by decide))

theorem reportLoop_events (gen : String → List Deal → Option String) :
    ∀ groups, ∀ e ∈ (reportLoop gen groups).1, ∃ b, e = ReportEvent.brandFailNotice b := by
  intro groups
  induction groups with
  | nil => intro e he; simp [reportLoop] at he
  | cons g rest ih =>
    intro e he
    rw [reportLoop] at he
    by_cases hg : g.2.isEmpty
    · rw [if_pos hg] at he
      exact ih e he
    · rw [if_neg hg] at he
      cases hgen : gen g.1 g.2 with
      | some path =>
        rw [hgen] at he
        exact ih e he
      | none =>
        rw [hgen] at he
        rcases List.mem_cons.1 he with rfl | he2
        · exact ⟨g.1, rfl⟩
        · exact ih e he2

theorem reportLoop_posters_nil_iff (gen : String → List Deal → Option String) :
    ∀ groups, (reportLoop gen groups).2 = []
      ↔ ∀ g ∈ groups, g.2 ≠ [] → gen g.1 g.2 = none := by
  intro groups
  induction groups with
  | nil => simp [reportLoop]
  | cons g rest ih =>
    rw [reportLoop]
    by_cases hg : g.2.isEmpty
    · rw [if_pos hg]
      rw [ih]
      have hg2 : g.2 = [] := List.isEmpty_iff.1 hg
      constructor
      · intro h e he hne
        rcases List.mem_cons.1 he with rfl | he2
        · exact absurd hg2 hne
        · exact h e he2 hne
      · intro h e he hne
        exact h e (List.mem_cons_of_mem _ he) hne
    · rw [if_neg hg]
      have hg2 : g.2 ≠ [] := fun h => hg (List.isEmpty_iff.2 h)
      cases hgen : gen g.1 g.2 with
      | some path =>
        simp only []
        constructor
        · intro h
          exact absurd h (List.cons_ne_nil path _)
        · intro h
          exact absurd hgen (by rw [h g (List.mem_cons_self g rest) hg2]; simp)
      | none =>
        simp only []
        rw [ih]
        constructor
        · intro h e he hne
          rcases List.mem_cons.1 he with rfl | he2
          · exact hgen
          · exact h e he2 hne
        · intro h e he hne
          exact h e (List.mem_cons_of_mem _ he) hne

theorem reportLoop_poster_mem (gen : String → List Deal → Option String) :
    ∀ groups g path, g ∈ groups → g.2 ≠ [] → gen g.1 g.2 = some path →
      path ∈ (reportLoop gen groups).2 := by
  intro groups
  induction groups with
  | nil => intro g path hg; simp at hg
  | cons h rest ih =>
    intro g path hg hne hgen
    rw [reportLoop]
    rcases List.mem_cons.1 hg with rfl | hg2
    · rw [if_neg (fun he => hne (List.isEmpty_iff.1 he)), hgen]
      exact List.mem_cons_self path _
    · by_cases hh : h.2.isEmpty
      · rw [if_pos hh]
        exact ih g path hg2 hne hgen
      · rw [if_neg hh]
        cases hgen2 : gen h.1 h.2 with
        | some p2 => exact List.mem_cons_of_mem _ (ih g path hg2 hne hgen)
        | none => exact ih g path hg2 hne hgen

theorem reportLoop_fail_mem (gen : String → List Deal → Option String) :
    ∀ groups g, g ∈ groups → g.2 ≠ [] → gen g.1 g.2 = none →
      ReportEvent.brandFailNotice g.1 ∈ (reportLoop gen groups).1 := by
  intro groups
  induction groups with
  | nil => intro g hg; simp at hg
  | cons h rest ih =>
    intro g hg hne hgen
    rw [reportLoop]
    rcases List.mem_cons.1 hg with rfl | hg2
    · rw [if_neg (fun he => hne (List.isEmpty_iff.1 he)), hgen]
      exact List.mem_cons_self _ _
    · by_cases hh : h.2.isEmpty
      · rw [if_pos hh]
        exact ih g hg2 hne hgen
      · rw [if_neg hh]
        cases hgen2 : gen h.1 h.2 with
        | some p2 => exact ih g hg2 hne hgen
        | none => exact List.mem_cons_of_mem _ (ih g hg2 hne hgen)

/-- C6: in the scheduled daily report a poster-generation failure for one
brand group is isolated — that brand's failure notice is sent and every
other (nonempty) brand group still gets its own outcome in the trace —
and the all-brands-failed summary notice appears in the trace exactly
when generation failed for every nonempty brand group (equivalently, no
poster was produced). -/
theorem daily_report_isolation_and_summary (gen : String → List Deal → Option String)
    (groups : List (String × List Deal)) :
    (∀ g ∈ groups, g.2 ≠ [] →
      (∀ path, gen g.1 g.2 = some path →
        ReportEvent.poster path ∈ daily_report_trace gen groups) ∧
      (gen g.1 g.2 = none →
        ReportEvent.brandFailNotice g.1 ∈ daily_report_trace gen groups)) ∧
    (ReportEvent.summaryNotice ∈ daily_report_trace gen groups ↔
      ∀ g ∈ groups, g.2 ≠ [] → gen g.1 g.2 = none) := by
  constructor
  · intro g hg hne
    constructor
    · intro path hgen
      have hmem := reportLoop_poster_mem gen groups g path hg hne hgen
      have hne2 : ¬ (reportLoop gen groups).2.isEmpty := by
        intro he
        rw [List.isEmpty_iff.1 he] at hmem
        simp at hmem
      unfold daily_report_trace
      rw [if_neg hne2]
      refine List.mem_append.2 (Or.inr ?_)
      exact List.mem_cons_of_mem _ (List.mem_map.2 ⟨path, hmem, rfl⟩)
    · intro hgen
      have hmem := reportLoop_fail_mem gen groups g hg hne hgen
      unfold daily_report_trace
      by_cases hps : (reportLoop gen groups).2.isEmpty
      · rw [if_pos hps]
        exact List.mem_append.2 (Or.inl hmem)
      · rw [if_neg hps]
        exact List.mem_append.2 (Or.inl hmem)
  · unfold daily_report_trace
    by_cases hps : (reportLoop gen groups).2.isEmpty
    · rw [if_pos hps]
      constructor
      · intro _
        exact (reportLoop_posters_nil_iff gen groups).1 (List.isEmpty_iff.1 hps)
      · intro _
        exact List.mem_append.2 (Or.inr (List.mem_cons_self _ _))
    · rw [if_neg hps]
      constructor
      · intro hmem
        rcases List.mem_append.1 hmem with h1 | h2
        · rcases reportLoop_events gen groups _ h1 with ⟨b, hb⟩
          exact absurd hb (by simp)
        · rcases List.mem_cons.1 h2 with h3 | h4
          · exact absurd h3 (by simp)
          · rcases List.mem_map.1 h4 with ⟨p, _, hp⟩
            exact absurd hp (by simp)
      · intro hall
        exact absurd (List.isEmpty_iff.2 ((reportLoop_posters_nil_iff gen groups).2 hall)) hps

/-- Witness for C6: with one failing and one succeeding brand group, the
failure notice and the successful poster both appear in the trace, and
the summary notice does not. -/
theorem daily_report_isolation_and_summary_witness :
    ReportEvent.brandFailNotice "A"
      ∈ daily_report_trace genEx [("A", [exDealA1]), ("B", [exDealB2])] ∧
    ReportEvent.poster "poster.png"
      ∈ daily_report_trace genEx [("A", [exDealA1]), ("B", [exDealB2])] := by
  constructor
  · exact ((daily_report_isolation_and_summary genEx
      [("A", [exDealA1]), ("B", [exDealB2])]).1 ("A", [exDealA1])
        (by decide) (by decide)).2 (by decide)
  · exact ((daily_report_isolation_and_summary genEx
      [("A", [exDealA1]), ("B", [exDealB2])]).1 ("B", [exDealB2])
        (by decide) (by decide)).1 "poster.png" (by decide)

/-- C7: every configured destination is attempted regardless of the other
destinations' outcomes (the statement holds for all oracles, so a
failure at one destination cannot suppress another's events): a
successful image send is recorded; a failed one records the failure and
triggers the degraded text — original caption plus the fixed apology
suffix — to the same destination; a failed degraded send is swallowed
(recorded, and the routine, being a total function, still returns). -/
theorem delivery_fanout_isolation (imgOk txtOk : String → Bool) (groups : List String)
    (path : String) (intro_text : Option String) :
    (∀ g ∈ groups,
      (imgOk (build_group_origin g) = true →
        SendEvent.imageSent (build_group_origin g) path
          ∈ send_image_to_all imgOk txtOk groups path intro_text) ∧
      (imgOk (build_group_origin g) = false →
        SendEvent.imageFailed (build_group_origin g)
          ∈ send_image_to_all imgOk txtOk groups path intro_text ∧
        (txtOk (build_group_origin g) = true →
          SendEvent.fallbackSent (build_group_origin g) (fallback_text intro_text)
            ∈ send_image_to_all imgOk txtOk groups path intro_text) ∧
        (txtOk (build_group_origin g) = false →
          SendEvent.fallbackFailed (build_group_origin g)
            ∈ send_image_to_all imgOk txtOk groups path intro_text))) ∧
    (∀ c, fallback_text (some c) = c ++ apologySuffix) := by
  constructor
  · intro g hg
    constructor
    · intro h
      exact List.mem_flatMap.2 ⟨g, hg, by simp [h]⟩
    · intro h
      refine ⟨List.mem_flatMap.2 ⟨g, hg, ?_⟩, ?_, ?_⟩
      · by_cases ht : txtOk (build_group_origin g) <;> simp [h, ht]
      · intro ht
        exact List.mem_flatMap.2 ⟨g, hg, by simp [h, ht]⟩
      · intro ht
        exact List.mem_flatMap.2 ⟨g, hg, by simp [h, ht]⟩
  · intro c
    rfl

/-- Witness for C7: with destinations `[111, 222]` where `111` fails and
`222` succeeds, the trace records the failure and degraded text for
`111` and still records the successful send to `222`. -/
theorem delivery_fanout_isolation_witness :
    SendEvent.imageFailed "aiocqhttp:group:111"
      ∈ send_image_to_all imgOkEx (fun _ => true) ["111", "222"] "p.png" (some "早报") ∧
    SendEvent.fallbackSent "aiocqhttp:group:111" ("早报" ++ apologySuffix)
      ∈ send_image_to_all imgOkEx (fun _ => true) ["111", "222"] "p.png" (some "早报") ∧
    SendEvent.imageSent "aiocqhttp:group:222" "p.png"
      ∈ send_image_to_all imgOkEx (fun _ => true) ["111", "222"] "p.png" (some "早报") := by
  have h := (delivery_fanout_isolation imgOkEx (fun _ => true) ["111", "222"]
    "p.png" (some "早报")).1
  refine ⟨?_, ?_, ?_⟩
  · exact (((h "111" (by decide)).2 (by decide)).1)
  · exact (((h "111" (by decide)).2 (by decide)).2.1 rfl)
  · exact ((h "222" (by decide)).1 (by decide))

/-- C8: `_parse_schedule_time` is total and never raises: it agrees with
the specification reading `scheduleTimeSpec` (exactly two `":"`-separated
fields that `int()`-parse into `0..23` and `0..59` give `(H, M)`), with
the fixed default `(8, 0)` for every other input. -/
theorem schedule_time_parsing_total (s : String) :
    parse_schedule_time s = (scheduleTimeSpec s).getD (8, 0) ∧
    (∀ H M, scheduleTimeSpec s = some (H, M) → parse_schedule_time s = (H, M)) ∧
    (scheduleTimeSpec s = none → parse_schedule_time s = (8, 0)) := by
  have hfields : ∀ a b : String,
      (match parse_hour_minute a b with
        | Except.ok hm => hm
        | Except.error _ => ((8 : Int), (0 : Int)))
        = (hourMinuteSpec a b).getD (8, 0) := by
    intro a b
    unfold parse_hour_minute hourMinuteSpec
    cases ha : pyInt a with
    | none => rfl
    | some hour =>
      cases hb : pyInt b with
      | none => rfl
      | some minute =>
        by_cases hr : 0 ≤ hour ∧ hour ≤ 23 ∧ 0 ≤ minute ∧ minute ≤ 59
        · simp only [if_pos hr]; rfl
        · simp only [if_neg hr]; rfl
  have key : parse_schedule_time s = (scheduleTimeSpec s).getD (8, 0) := by
    unfold parse_schedule_time parse_schedule_time_body scheduleTimeSpec
    cases hs : pySplitColon (pyStrip s) with
    | nil => rfl
    | cons a t =>
      cases t with
      | nil => rfl
      | cons b t2 =>
        cases t2 with
        | cons c t3 => rfl
        | nil => exact hfields a b
  refine ⟨key, ?_, ?_⟩
  · intro H M h; rw [key, h]; rfl
  · intro h; rw [key, h]; rfl

/-- Witness for C8: a well-formed time parses to its components, and a
malformed one falls back to `(8, 0)`. -/
theorem schedule_time_parsing_total_witness :
    parse_schedule_time "07:30" = (7, 30) ∧
    parse_schedule_time "25:99" = (8, 0) ∧
    parse_schedule_time "briefing" = (8, 0) := by
  refine ⟨?_, ?_, ?_⟩
  · exact (schedule_time_parsing_total "07:30").2.1 7 30 (by decide)
  · exact (schedule_time_parsing_total "25:99").2.2 (by decide)
  · exact (schedule_time_parsing_total "briefing").2.2 (by decide)

end FastFood
